import Mathlib

/-!
Verification development for the simulated stock-trading platform
(Flask/Streamlit app with a PostgreSQL store).

The embedding models the trading core for one fixed user:
* the `users` row is the cash `balance` (DECIMAL, here `ℚ`);
* the `portfolio` table is the list of `PosRow` (one per symbol);
* the `transactions` table is the append-only list of `Txn`.

`Database.execute_query` (src/database.py, lines 57-74) opens a connection,
executes exactly one SQL statement and immediately commits it, so every
primitive write is its own transaction.  We therefore model a trade as the
list of committed primitive writes (`WOp`) it issues, in order; a crash
between two writes corresponds to applying a proper prefix of that list.

Arithmetic: Python floats are modelled by `ℚ` (the exact arithmetic the
formulas denote); share quantities are `ℤ` (the DB column is INTEGER).
-/

namespace FinPlatform

/-- Transaction type, `transaction_type` column (`'BUY'` / `'SELL'`). -/
inductive TxnType where
  | BUY
  | SELL
deriving DecidableEq, Repr

/-- One row of the append-only `transactions` table (for the fixed user). -/
structure Txn where
  symbol : String
  quantity : ℤ
  price : ℚ
  ttype : TxnType
deriving DecidableEq, Repr

/-- One row of the `portfolio` table (for the fixed user). -/
structure PosRow where
  symbol : String
  quantity : ℤ
  average_price : ℚ
deriving DecidableEq, Repr

/-- The persistent store, restricted to one user: their balance, their
portfolio rows and their transaction log. -/
structure Store where
  balance : ℚ
  portfolio : List PosRow
  transactions : List Txn
deriving DecidableEq, Repr

/-- First portfolio row whose `symbol` matches: the semantics of
`SELECT quantity, average_price FROM portfolio WHERE user_id = %s AND symbol = %s`
(src/models.py lines 58-62) and of
`next((h for h in holdings if h['symbol'] == symbol), None)` (src/api.py line 187). -/
def findRow (sym : String) : List PosRow → Option PosRow
  | [] => none
  | r :: rest => if r.symbol = sym then some r else findRow sym rest

/-- `UPDATE portfolio SET quantity = %s, average_price = %s WHERE user_id = %s AND symbol = %s`
(src/models.py lines 76-81): every matching row gets the new quantity and price. -/
def updateRow (sym : String) (q : ℤ) (avg : ℚ) : List PosRow → List PosRow
  | [] => []
  | r :: rest =>
      (if r.symbol = sym then { r with quantity := q, average_price := avg } else r)
        :: updateRow sym q avg rest

/-- `DELETE FROM portfolio WHERE user_id = %s AND symbol = %s`
(src/models.py lines 83-87). -/
def deleteRow (sym : String) : List PosRow → List PosRow
  | [] => []
  | r :: rest => if r.symbol = sym then deleteRow sym rest else r :: deleteRow sym rest

/-- A primitive committed write.  Each constructor is one SQL statement issued
through `Database.execute_query`, which commits it immediately
(src/database.py lines 62-64: `cur.execute(...)` then `conn.commit()`). -/
inductive WOp where
  | setBalance (b : ℚ)
  | insertTxn (t : Txn)
  | updatePos (sym : String) (q : ℤ) (avg : ℚ)
  | insertPos (sym : String) (q : ℤ) (avg : ℚ)
  | deletePos (sym : String)
deriving DecidableEq, Repr

/-- Effect of one committed write on the store. -/
def applyOp (s : Store) : WOp → Store
  | .setBalance b => { s with balance := b }
  | .insertTxn t => { s with transactions := s.transactions ++ [t] }
  | .updatePos sym q avg => { s with portfolio := updateRow sym q avg s.portfolio }
  | .insertPos sym q avg => { s with portfolio := s.portfolio ++ [⟨sym, q, avg⟩] }
  | .deletePos sym => { s with portfolio := deleteRow sym s.portfolio }

/-- Committed-write sequence of `Portfolio.update_position`
(src/models.py lines 48-93): first the INSERT into `transactions`, then —
depending on the existing row read by the SELECT — an UPDATE, DELETE or
INSERT on `portfolio`.  The SELECT runs after the transaction INSERT in the
source, but that INSERT does not touch the `portfolio` table, so reading the
row from the pre-state is faithful.  For BUY on an existing row the new
average is `((q·c) + (quantity·price)) / new_qty` (line 70); for SELL the
average is kept when `new_qty > 0` and set to 0 otherwise (line 73); the row
is updated when `new_qty > 0` (line 75) and deleted otherwise (line 82);
with no existing row, BUY inserts `(quantity, price)` (lines 88-93) and SELL
does nothing further. -/
def update_position_writes (s : Store) (sym : String) (quantity : ℤ) (price : ℚ)
    (ttype : TxnType) : List WOp :=
  let txnWrite : WOp := .insertTxn ⟨sym, quantity, price, ttype⟩
  match findRow sym s.portfolio with
  | some row =>
      let res : ℤ × ℚ :=
        match ttype with
        | .BUY =>
            let newQty := row.quantity + quantity
            (newQty,
              ((row.quantity : ℚ) * row.average_price + (quantity : ℚ) * price) / (newQty : ℚ))
        | .SELL =>
            let newQty := row.quantity - quantity
            (newQty, if 0 < newQty then row.average_price else 0)
      if 0 < res.1 then [txnWrite, .updatePos sym res.1 res.2]
      else [txnWrite, .deletePos sym]
  | none =>
      match ttype with
      | .BUY => [txnWrite, .insertPos sym quantity price]
      | .SELL => [txnWrite]

/-- `Portfolio.update_position` as a state transformer: all its committed
writes applied in order. -/
def update_position (s : Store) (sym : String) (quantity : ℤ) (price : ℚ)
    (ttype : TxnType) : Store :=
  (update_position_writes s sym quantity price ttype).foldl applyOp s

/-- `User.get_balance` (src/models.py lines 27-31). -/
def get_balance (s : Store) : ℚ := s.balance

/-- `User.update_balance` (src/models.py lines 33-36): a single committed
UPDATE of the balance. -/
def update_balance (s : Store) (b : ℚ) : Store := applyOp s (.setBalance b)

/-- `Portfolio.get_holdings` (src/models.py lines 39-46). -/
def get_holdings (s : Store) : List PosRow := s.portfolio

/-- Error kinds surfaced by the two trade handlers. `tradeFailed` is the
generic `'Trade failed'` / HTTP 500 response of the `except` clause in
src/api.py lines 193-195. -/
inductive TradeErr where
  | invalidSymbol
  | insufficientFunds
  | insufficientShares
  | tradeFailed
deriving DecidableEq, Repr

/-- Committed-write sequence of the trading-form submit handler
(src/components/trading.py lines 78-105, after the confirmation check):
`total_cost = current_price * quantity`; BUY checks `total_cost > balance`
then runs `User.update_balance(user_id, balance - total_cost)` followed by
`Portfolio.update_position(..., 'BUY')`; SELL looks the symbol up in
`Portfolio.get_holdings` and checks `current_position['quantity'] < quantity`,
then runs `User.update_balance(user_id, balance + total_cost)` followed by
`Portfolio.update_position(..., 'SELL')`.  Each error return in the source
happens before any write. -/
def trade_form_writes (s : Store) (action : TxnType) (sym : String) (quantity : ℤ)
    (price : ℚ) : Except TradeErr (List WOp) :=
  let total_cost : ℚ := price * (quantity : ℚ)
  let balance := get_balance s
  match action with
  | .BUY =>
      if total_cost > balance then .error .insufficientFunds
      else
        .ok (.setBalance (balance - total_cost) ::
          update_position_writes (update_balance s (balance - total_cost)) sym quantity price .BUY)
  | .SELL =>
      match findRow sym (get_holdings s) with
      | none => .error .insufficientShares
      | some pos =>
          if pos.quantity < quantity then .error .insufficientShares
          else
            .ok (.setBalance (balance + total_cost) ::
              update_position_writes (update_balance s (balance + total_cost)) sym quantity price .SELL)

/-- The trading-form handler as a state transformer: on success all committed
writes are applied; on a validation error the handler returns before issuing
any write, so the store is unchanged. -/
def render_trading_trade (s : Store) (action : TxnType) (sym : String) (quantity : ℤ)
    (price : ℚ) : Option TradeErr × Store :=
  match trade_form_writes s action sym quantity price with
  | .error e => (some e, s)
  | .ok ws => (none, ws.foldl applyOp s)

/-- The `/api/trade` handler (src/api.py lines 160-195).  `info` is the
`get_stock_info(symbol)` result (`None` yields `'Invalid symbol'`, line 171).
After the symbol check the handler evaluates `User.get_by_id(user_id)`
(line 176); the `User` class in src/models.py defines only `create`,
`authenticate`, `get_balance` and `update_balance` — there is no `get_by_id`
anywhere in the repository — so this attribute access raises
`AttributeError` on every request, which the handler's `except` clause
(lines 193-195) converts into the generic `'Trade failed'` HTTP 500
response.  No write is issued before that point, so the store is unchanged. -/
def api_trade (s : Store) (info : Option ℚ) (_action : TxnType) (_sym : String)
    (_quantity : ℤ) : Option TradeErr × Store :=
  match info with
  | none => (some .invalidSymbol, s)
  | some _ => (some .tradeFailed, s)

/-- Symbolic digest value.  `Digest.sha256 s` stands for the string
`hashlib.sha256(s.encode()).hexdigest()` — a pure, deterministic function of
its input string (no injectivity is assumed). -/
inductive Digest where
  | sha256 (input : String)
deriving DecidableEq, Repr

/-- The row `User.create` inserts into `users` (besides the serial id and the
default balance): the username and the password digest. -/
structure UserRow where
  username : String
  password_hash : Digest
deriving DecidableEq, Repr

/-- `User.create` (src/models.py lines 5-14): computes
`password_hash = hashlib.sha256(password.encode()).hexdigest()` and inserts
`(username, password_hash)` into `users`.  The digest input is the password
string alone — no salt, no per-user data. -/
def User.create (username password : String) : UserRow :=
  { username := username, password_hash := .sha256 password }

end FinPlatform

namespace FinPlatform

/-! Embedding of `SentimentAnalyzer` (src/utils/sentiment_analyzer.py).
The three sources fetch from external providers; each fetch outcome is an
explicit argument (`Except Unit _`, with `.error ()` standing for any raised
exception caught by the source's `try/except`). -/

/-- Outcome of the per-article body `content = extract(fetch_url(article['url']))`
followed by `TextBlob(content).sentiment.polarity` (lines 31-39): `.error ()`
when the inner `try` catches an exception, `.ok none` when the extracted
content is falsy (`if content:` fails), and `.ok (some p)` when the article
scores polarity `p`. -/
abbrev ArticleOutcome := Except Unit (Option ℚ)

/-- Polarity collected from one article by the loop body (lines 31-39): a
caught exception (`continue`) or a falsy body contributes nothing, a scored
article contributes its polarity. -/
def articleScore : ArticleOutcome → Option ℚ
  | .ok (some p) => some p
  | _ => none

/-- `SentimentAnalyzer.get_news_sentiment` (lines 14-48): on a fetch error
return `(0, 0)`; if no news, return `(0, 0)`; otherwise score the first 10
articles, skipping failures and empty bodies; if any scored, return their
mean and `count/10` as confidence, else `(0, 0)`. -/
def get_news_sentiment (fetched : Except Unit (List ArticleOutcome)) : ℚ × ℚ :=
  match fetched with
  | .error _ => (0, 0)
  | .ok [] => (0, 0)
  | .ok news =>
      match (news.take 10).filterMap articleScore with
      | [] => (0, 0)
      | scored => (scored.sum / (scored.length : ℚ), (scored.length : ℚ) / 10)

/-- One recommendation-trend snapshot: the five integer buckets. -/
structure RecTrend where
  strongBuy : ℕ
  buy : ℕ
  hold : ℕ
  sell : ℕ
  strongSell : ℕ
deriving DecidableEq, Repr

/-- `SentimentAnalyzer.get_analyst_ratings` (lines 50-70): on a fetch error
return `(0, None)`; with a non-empty trend list take the first snapshot,
and when its bucket total is positive return the weighted score
(strongBuy·1 + buy·½ + hold·0 + sell·(-½) + strongSell·(-1)) / total together
with the snapshot; otherwise `(0, None)`. -/
def get_analyst_ratings (fetched : Except Unit (List RecTrend)) : ℚ × Option RecTrend :=
  match fetched with
  | .error _ => (0, none)
  | .ok [] => (0, none)
  | .ok (latest :: _) =>
      let total : ℕ := latest.buy + latest.hold + latest.sell + latest.strongBuy + latest.strongSell
      if 0 < total then
        (((latest.strongBuy : ℚ) * 1 + (latest.buy : ℚ) * (1/2) + (latest.hold : ℚ) * 0
            + (latest.sell : ℚ) * (-(1/2)) + (latest.strongSell : ℚ) * (-1)) / (total : ℚ),
          some latest)
      else (0, none)

/-- `SentimentAnalyzer.get_market_fear_index` (lines 72-87): on a fetch error
or an empty 5-day VIX series return `(0, 0, 0)`; otherwise with first close
`c₀` and latest close `current`, return
`(-clamp((current - 15) / 35, -1, 1), current, ((current - c₀) / c₀) * 100)`. -/
def get_market_fear_index (fetched : Except Unit (List ℚ)) : ℚ × ℚ × ℚ :=
  match fetched with
  | .error _ => (0, 0, 0)
  | .ok [] => (0, 0, 0)
  | .ok (c0 :: rest) =>
      let current := (c0 :: rest).getLast (List.cons_ne_nil c0 rest)
      let vix_change := ((current - c0) / c0) * 100
      let vix_sentiment := -(min (max ((current - 15) / 35) (-1)) 1)
      (vix_sentiment, current, vix_change)

/-- The dictionary returned by `get_composite_sentiment` (lines 109-118). -/
structure SentimentResult where
  composite : ℚ
  news : ℚ
  analyst : ℚ
  fear : ℚ
  vix : ℚ
  vix_change : ℚ
  analyst_data : Option RecTrend
  news_confidence : ℚ
deriving DecidableEq, Repr

/-- `SentimentAnalyzer.get_composite_sentiment` (lines 89-118): obtains the
three source results and blends the scores with the fixed weights
news 0.3, analyst 0.4, fear 0.3. -/
def get_composite_sentiment (newsFetched : Except Unit (List ArticleOutcome))
    (analystFetched : Except Unit (List RecTrend))
    (vixFetched : Except Unit (List ℚ)) : SentimentResult :=
  let news := get_news_sentiment newsFetched
  let analyst := get_analyst_ratings analystFetched
  let fear := get_market_fear_index vixFetched
  { composite := news.1 * (3/10) + analyst.1 * (4/10) + fear.1 * (3/10)
    news := news.1
    analyst := analyst.1
    fear := fear.1
    vix := fear.2.1
    vix_change := fear.2.2
    analyst_data := analyst.2
    news_confidence := news.2 }

/-- Folding a list of BUY transactions through `Portfolio.update_position`,
all at one symbol.  Each list element is a `(quantity, price)` pair. -/
def apply_buys (s : Store) (sym : String) (buys : List (ℤ × ℚ)) : Store :=
  buys.foldl (fun t b => update_position t sym b.1 b.2 .BUY) s

end FinPlatform

namespace FinPlatform

/-! Helper lemmas about the row-level store operations. -/

theorem findRow_updateRow {sym : String} {q : ℤ} {avg : ℚ} :
    ∀ {p : List PosRow} {r : PosRow}, findRow sym p = some r →
      findRow sym (updateRow sym q avg p) = some ⟨sym, q, avg⟩ := by
  intro p
  induction p with
  | nil => intro r h; simp [findRow] at h
  | cons a rest ih =>
      intro r h
      by_cases ha : a.symbol = sym
      · simp [findRow, updateRow, ha]
      · simp only [findRow, updateRow, if_neg ha] at h ⊢
        exact ih h

theorem findRow_deleteRow {sym : String} :
    ∀ p : List PosRow, findRow sym (deleteRow sym p) = none := by
  intro p
  induction p with
  | nil => simp [findRow, deleteRow]
  | cons a rest ih =>
      by_cases ha : a.symbol = sym
      · simpa [deleteRow, ha] using ih
      · simpa [deleteRow, ha, findRow] using ih

theorem findRow_append_of_none {sym : String} {q : ℤ} {avg : ℚ} :
    ∀ {p : List PosRow}, findRow sym p = none →
      findRow sym (p ++ [⟨sym, q, avg⟩]) = some ⟨sym, q, avg⟩ := by
  intro p
  induction p with
  | nil => intro _; simp [findRow]
  | cons a rest ih =>
      intro h
      by_cases ha : a.symbol = sym
      · simp [findRow, ha] at h
      · simp only [findRow, if_neg ha, List.cons_append] at h ⊢
        exact ih h

/-! Characterizations of `Portfolio.update_position`, one per source branch. -/

/-- BUY with an existing row (src/models.py lines 68-70, 75-81). -/
theorem update_position_buy_existing {s : Store} {sym : String} {r : PosRow}
    (qty : ℤ) (p : ℚ) (h : findRow sym s.portfolio = some r) (hq : 0 < r.quantity + qty) :
    update_position s sym qty p .BUY =
      { s with
          transactions := s.transactions ++ [⟨sym, qty, p, .BUY⟩],
          portfolio := updateRow sym (r.quantity + qty)
            (((r.quantity : ℚ) * r.average_price + (qty : ℚ) * p) / ((r.quantity + qty : ℤ) : ℚ))
            s.portfolio } := by
  simp [update_position, update_position_writes, h, hq, applyOp]

/-- BUY with no existing row (src/models.py lines 88-93). -/
theorem update_position_buy_new {s : Store} {sym : String}
    (qty : ℤ) (p : ℚ) (h : findRow sym s.portfolio = none) :
    update_position s sym qty p .BUY =
      { s with
          transactions := s.transactions ++ [⟨sym, qty, p, .BUY⟩],
          portfolio := s.portfolio ++ [⟨sym, qty, p⟩] } := by
  simp [update_position, update_position_writes, h, applyOp]

/-- SELL with an existing row and a strictly positive remaining quantity
(src/models.py lines 71-73 and 75-81): the row keeps its average price. -/
theorem update_position_sell_keep {s : Store} {sym : String} {r : PosRow}
    (qty : ℤ) (p : ℚ) (h : findRow sym s.portfolio = some r) (hq : 0 < r.quantity - qty) :
    update_position s sym qty p .SELL =
      { s with
          transactions := s.transactions ++ [⟨sym, qty, p, .SELL⟩],
          portfolio := updateRow sym (r.quantity - qty) r.average_price s.portfolio } := by
  simp [update_position, update_position_writes, h, hq, applyOp]

/-- SELL with an existing row and a remaining quantity ≤ 0
(src/models.py lines 71-73 and 82-87): the row is deleted. -/
theorem update_position_sell_delete {s : Store} {sym : String} {r : PosRow}
    (qty : ℤ) (p : ℚ) (h : findRow sym s.portfolio = some r) (hq : ¬ 0 < r.quantity - qty) :
    update_position s sym qty p .SELL =
      { s with
          transactions := s.transactions ++ [⟨sym, qty, p, .SELL⟩],
          portfolio := deleteRow sym s.portfolio } := by
  simp [update_position, update_position_writes, h, hq, applyOp]

/-- No write issued by `Portfolio.update_position` touches the balance. -/
theorem update_position_balance (s : Store) (sym : String) (qty : ℤ) (p : ℚ) (t : TxnType) :
    (update_position s sym qty p t).balance = s.balance := by
  unfold update_position update_position_writes
  cases hf : findRow sym s.portfolio <;> cases t <;>
    simp only [] <;> first
      | (split <;> simp [applyOp])
      | simp [applyOp]

/-- Invariant behind the volume-weighted average: starting from an existing
position `(Q, C)` with `Q > 0`, a sequence of positive BUYs leaves quantity
`Q + Σqᵢ` and average cost `(Q·C + Σqᵢ·pᵢ) / (Q + Σqᵢ)`. -/
theorem apply_buys_existing {sym : String} :
    ∀ (buys : List (ℤ × ℚ)) (s : Store) (Q : ℤ) (C : ℚ),
      (∀ b ∈ buys, 0 < b.1) → 0 < Q →
      findRow sym s.portfolio = some ⟨sym, Q, C⟩ →
      findRow sym (apply_buys s sym buys).portfolio =
        some ⟨sym, Q + (buys.map Prod.fst).sum,
          ((Q : ℚ) * C + (buys.map (fun b => (b.1 : ℚ) * b.2)).sum)
            / ((Q + (buys.map Prod.fst).sum : ℤ) : ℚ)⟩ := by
  intro buys
  induction buys with
  | nil =>
      intro s Q C _ hQ h
      have hQ0 : ((Q : ℚ)) ≠ 0 := by
        have h2 : (0 : ℚ) < (Q : ℚ) := by exact_mod_cast hQ
        exact ne_of_gt h2
      simpa [apply_buys, mul_div_cancel_left₀ C hQ0] using h
  | cons b rest ih =>
      intro s Q C hpos hQ h
      have hb : 0 < b.1 := hpos b (List.mem_cons_self b rest)
      have hQb : 0 < Q + b.1 := by omega
      have hstep := update_position_buy_existing (r := ⟨sym, Q, C⟩) b.1 b.2 h hQb
      have hfind : findRow sym (update_position s sym b.1 b.2 .BUY).portfolio
          = some ⟨sym, Q + b.1, ((Q : ℚ) * C + (b.1 : ℚ) * b.2) / ((Q + b.1 : ℤ) : ℚ)⟩ := by
        rw [hstep]
        exact findRow_updateRow h
      have happ : apply_buys s sym (b :: rest)
          = apply_buys (update_position s sym b.1 b.2 .BUY) sym rest := rfl
      rw [happ]
      have hrest := ih (update_position s sym b.1 b.2 .BUY) (Q + b.1)
        (((Q : ℚ) * C + (b.1 : ℚ) * b.2) / ((Q + b.1 : ℤ) : ℚ))
        (fun x hx => hpos x (List.mem_cons_of_mem b hx)) hQb hfind
      rw [hrest]
      have hD : ((Q + b.1 : ℤ) : ℚ) ≠ 0 := by
        have h2 : (0 : ℚ) < ((Q + b.1 : ℤ) : ℚ) := by exact_mod_cast hQb
        exact ne_of_gt h2
      have hkey : ((Q + b.1 : ℤ) : ℚ)
            * (((Q : ℚ) * C + (b.1 : ℚ) * b.2) / ((Q + b.1 : ℤ) : ℚ))
          = (Q : ℚ) * C + (b.1 : ℚ) * b.2 := by
        rw [← mul_div_assoc, mul_div_cancel_left₀ _ hD]
      simp only [List.map_cons, List.sum_cons, Option.some.injEq, PosRow.mk.injEq]
      refine ⟨trivial, by ring, ?_⟩
      rw [hkey]
      push_cast
      ring

/-- When every fetched article fails to score, the news source degrades to
the neutral `(0, 0)`. -/
theorem get_news_sentiment_all_failed (l : List ArticleOutcome)
    (h : ∀ a ∈ l, articleScore a = none) :
    get_news_sentiment (.ok l) = (0, 0) := by
  cases l with
  | nil => rfl
  | cons a rest =>
      have hfm : ((a :: rest).take 10).filterMap articleScore = [] :=
        List.filterMap_eq_nil_iff.mpr (fun x hx => h x (List.mem_of_mem_take hx))
      show (match ((a :: rest).take 10).filterMap articleScore with
            | [] => ((0 : ℚ), (0 : ℚ))
            | scored => (scored.sum / (scored.length : ℚ), (scored.length : ℚ) / 10))
          = (0, 0)
      rw [hfm]

/-- C1: the claim asserts that the balance debit/credit and the position
mutation of one trade are committed all-or-nothing.  In the code every
`Database.execute_query` call commits its single statement immediately, and
the balance UPDATE and the position writes are separate calls, so the write
sequence of a successful BUY (balance 100000, BUY 10 of XYZ at 50) is three
independently committed statements; stopping after the first one (a crash
between `User.update_balance` and `Portfolio.update_position`) leaves a
committed state with balance 99500 and no position row — the balance change
applied without the position change. -/
theorem trade_commit_prefix_inconsistent :
    trade_form_writes ⟨100000, [], []⟩ .BUY "XYZ" 10 50 =
      .ok [.setBalance 99500, .insertTxn ⟨"XYZ", 10, 50, .BUY⟩, .insertPos "XYZ" 10 50]
    ∧ ((([WOp.setBalance 99500, .insertTxn ⟨"XYZ", 10, 50, .BUY⟩,
          .insertPos "XYZ" 10 50].take 1).foldl applyOp ⟨100000, [], []⟩).balance = 99500
        ∧ findRow "XYZ" ((([WOp.setBalance 99500, .insertTxn ⟨"XYZ", 10, 50, .BUY⟩,
            .insertPos "XYZ" 10 50].take 1).foldl applyOp ⟨100000, [], []⟩).portfolio) = none)
    ∧ findRow "XYZ" (([WOp.setBalance 99500, .insertTxn ⟨"XYZ", 10, 50, .BUY⟩,
          .insertPos "XYZ" 10 50] : List WOp).foldl applyOp ⟨100000, [], []⟩).portfolio
        = some ⟨"XYZ", 10, 50⟩ := by
  refine ⟨?_, ⟨rfl, rfl⟩, rfl⟩
  norm_num [trade_form_writes, get_balance, update_balance, applyOp,
    update_position_writes, findRow]

/-- C4: the claim asserts that a SELL with no position (or too few shares)
fails with an `InsufficientShares` error and no mutation.  The trading-form
handler does exactly that (second and third conjuncts), but the `/api/trade`
handler never reaches its insufficient-shares check: it calls the undefined
`User.get_by_id` and every API request ends as the generic `'Trade failed'`
HTTP 500 (first conjunct), though still with no mutation. -/
theorem api_sell_insufficient_shares_generic_error :
    api_trade ⟨100000, [], []⟩ (some 50) .SELL "AAPL" 5
      = (some .tradeFailed, ⟨100000, [], []⟩)
    ∧ render_trading_trade ⟨100000, [], []⟩ .SELL "AAPL" 5 50
      = (some .insufficientShares, ⟨100000, [], []⟩)
    ∧ render_trading_trade ⟨100000, [⟨"AAPL", 3, 40⟩], []⟩ .SELL "AAPL" 5 50
      = (some .insufficientShares, ⟨100000, [⟨"AAPL", 3, 40⟩], []⟩) := by
  refine ⟨rfl, rfl, ?_⟩
  norm_num [render_trading_trade, trade_form_writes, get_holdings, findRow]

/-- C5: the claim asserts that a BUY whose total cost exceeds the balance
fails with an `InsufficientFunds` error, no mutation, idempotently.  The
trading-form handler does exactly that (second and third conjuncts: one call
and a repeated call both leave the store at its original value), but the
`/api/trade` handler never reaches its insufficient-funds check: it calls the
undefined `User.get_by_id` and every API request ends as the generic
`'Trade failed'` HTTP 500 (first conjunct), though still with no mutation. -/
theorem api_buy_insufficient_funds_generic_error :
    api_trade ⟨1000, [], []⟩ (some 100) .BUY "AAPL" 20
      = (some .tradeFailed, ⟨1000, [], []⟩)
    ∧ render_trading_trade ⟨1000, [], []⟩ .BUY "AAPL" 20 100
      = (some .insufficientFunds, ⟨1000, [], []⟩)
    ∧ render_trading_trade (render_trading_trade ⟨1000, [], []⟩ .BUY "AAPL" 20 100).2
        .BUY "AAPL" 20 100 = (some .insufficientFunds, ⟨1000, [], []⟩) := by
  refine ⟨rfl, ?_, ?_⟩ <;>
    norm_num [render_trading_trade, trade_form_writes, get_balance]

/-- C6: `get_composite_sentiment` always sets
`composite = news·0.3 + analyst·0.4 + fear·0.3` over the component scores it
obtained; with all three components 0 the composite is 0, and with
news = 1, analyst = 1, fear = −1 the composite is 0.4 = 2/5. -/
theorem composite_weighting :
    (∀ (nf : Except Unit (List ArticleOutcome)) (af : Except Unit (List RecTrend))
        (vf : Except Unit (List ℚ)),
        (get_composite_sentiment nf af vf).composite =
          (get_composite_sentiment nf af vf).news * (3/10)
          + (get_composite_sentiment nf af vf).analyst * (4/10)
          + (get_composite_sentiment nf af vf).fear * (3/10))
    ∧ (get_composite_sentiment (.error ()) (.error ()) (.error ())).composite = 0
    ∧ (get_composite_sentiment (.ok [.ok (some 1)]) (.ok [⟨1, 0, 0, 0, 0⟩])
        (.ok [50])).composite = 2/5 := by
  refine ⟨fun nf af vf => rfl, ?_, ?_⟩
  · simp [get_composite_sentiment, get_news_sentiment, get_analyst_ratings,
      get_market_fear_index]
  · have hnews : get_news_sentiment (.ok [.ok (some 1)]) = (1, 1/10) := by
      have hfm : (([(.ok (some 1) : ArticleOutcome)]).take 10).filterMap articleScore = [1] := rfl
      show (match (([(.ok (some 1) : ArticleOutcome)]).take 10).filterMap articleScore with
            | [] => ((0 : ℚ), (0 : ℚ))
            | scored => (scored.sum / (scored.length : ℚ), (scored.length : ℚ) / 10))
          = (1, 1/10)
      rw [hfm]
      norm_num
    have hana : get_analyst_ratings (.ok [⟨1, 0, 0, 0, 0⟩]) = (1, some ⟨1, 0, 0, 0, 0⟩) := by
      norm_num [get_analyst_ratings]
    have hfear : get_market_fear_index (.ok [50]) = (-1, 50, 0) := by
      have hmax : max (((50 : ℚ) - 15) / 35) (-1) = 1 := by
        rw [show (((50 : ℚ) - 15) / 35) = 1 by norm_num]
        exact max_eq_left (by norm_num)
      norm_num [get_market_fear_index, List.getLast, hmax]
    rw [get_composite_sentiment, hnews, hana, hfear]
    norm_num

/-- C7: each sentiment source catches its own failures and returns the
structurally valid neutral value — `(0, 0)` for news, `(0, none)` for analyst
ratings, `(0, 0, 0)` for the fear index — both when the fetch itself raises
and (for news) when every one of the fetched articles fails to score, so
`get_composite_sentiment` always receives well-formed component results. -/
theorem sentiment_sources_degrade_neutrally :
    get_news_sentiment (.error ()) = (0, 0)
    ∧ get_analyst_ratings (.error ()) = (0, none)
    ∧ get_market_fear_index (.error ()) = (0, 0, 0)
    ∧ ∀ n : ℕ, get_news_sentiment (.ok (List.replicate n (.error ()))) = (0, 0) := by
  refine ⟨rfl, rfl, rfl, fun n => ?_⟩
  refine get_news_sentiment_all_failed _ (fun a ha => ?_)
  rw [List.eq_of_mem_replicate ha]
  rfl

/-- C9 counterexample: the claim says the stored credential is a *salted*
hash.  `User.create` stores `hashlib.sha256(password.encode()).hexdigest()`,
a function of the password alone: the stored digest for the password
`"demo123"` is exactly the unsalted SHA-256 of `"demo123"`, and two distinct
users created with the same password receive identical stored digests, which
is impossible under per-record salting. -/
theorem password_hash_unsalted_counterexample :
    (User.create "alice" "demo123").password_hash = Digest.sha256 "demo123"
    ∧ (User.create "alice" "demo123").password_hash
      = (User.create "bob" "demo123").password_hash :=
  ⟨rfl, rfl⟩

/-- C9 (amended): `User.create` stores the password credential only as the
unsalted SHA-256 digest of the password — the inserted row holds just the
username and that digest, never the plaintext as a stored field, and the
digest depends on the password alone (no salt: equal passwords give equal
stored digests regardless of username). -/
theorem password_hash_sha256_of_password :
    ∀ username password : String,
      User.create username password = ⟨username, Digest.sha256 password⟩
      ∧ ∀ other : String,
        (User.create other password).password_hash
          = (User.create username password).password_hash :=
  fun _ _ => ⟨rfl, fun _ => rfl⟩

/-- C2: BUYs through `Portfolio.update_position` realize volume-weighted
average costing — any non-empty sequence of positive BUYs on an initially
absent position ends with quantity `Σqᵢ` and average cost `Σqᵢ·pᵢ / Σqᵢ`;
a BUY on an existing position `(q, c)` yields
`(q + quantity, (q·c + quantity·price) / (q + quantity))`; and the first BUY
creates the position as `(quantity, price)`. -/
theorem buy_weighted_average :
    (∀ (s : Store) (sym : String) (buys : List (ℤ × ℚ)),
        findRow sym s.portfolio = none → buys ≠ [] → (∀ b ∈ buys, 0 < b.1) →
        findRow sym (apply_buys s sym buys).portfolio =
          some ⟨sym, (buys.map Prod.fst).sum,
            (buys.map (fun b => (b.1 : ℚ) * b.2)).sum
              / (((buys.map Prod.fst).sum : ℤ) : ℚ)⟩)
    ∧ (∀ (s : Store) (sym : String) (r : PosRow) (qty : ℤ) (p : ℚ),
        findRow sym s.portfolio = some r → 0 < qty → 0 < r.quantity →
        findRow sym (update_position s sym qty p .BUY).portfolio =
          some ⟨sym, r.quantity + qty,
            ((r.quantity : ℚ) * r.average_price + (qty : ℚ) * p)
              / ((r.quantity + qty : ℤ) : ℚ)⟩)
    ∧ (∀ (s : Store) (sym : String) (qty : ℤ) (p : ℚ),
        findRow sym s.portfolio = none →
        findRow sym (update_position s sym qty p .BUY).portfolio = some ⟨sym, qty, p⟩) := by
  refine ⟨?_, ?_, ?_⟩
  · intro s sym buys h hne hpos
    match buys, hne with
    | b :: rest, _ =>
      have hb : 0 < b.1 := hpos b (List.mem_cons_self b rest)
      have h1 : findRow sym (update_position s sym b.1 b.2 .BUY).portfolio
          = some ⟨sym, b.1, b.2⟩ := by
        rw [update_position_buy_new b.1 b.2 h]
        exact findRow_append_of_none h
      have happ : apply_buys s sym (b :: rest)
          = apply_buys (update_position s sym b.1 b.2 .BUY) sym rest := rfl
      rw [happ]
      have hrest := apply_buys_existing rest (update_position s sym b.1 b.2 .BUY) b.1 b.2
        (fun x hx => hpos x (List.mem_cons_of_mem b hx)) hb h1
      rw [hrest]
      simp only [List.map_cons, List.sum_cons]
  · intro s sym r qty p h _ hr
    have hQ : 0 < r.quantity + qty := by omega
    rw [update_position_buy_existing qty p h hQ]
    exact findRow_updateRow h
  · intro s sym qty p h
    rw [update_position_buy_new qty p h]
    exact findRow_append_of_none h

/-- C2 witness: from no position, BUY 10 at 50 then BUY 10 at 60 gives
20 shares at average cost 55. -/
theorem buy_weighted_average_witness :
    findRow "XYZ" (apply_buys ⟨100000, [], []⟩ "XYZ" [(10, 50), (10, 60)]).portfolio
      = some ⟨"XYZ", 20, 55⟩ := by
  have h := buy_weighted_average.1 ⟨100000, [], []⟩ "XYZ" [(10, 50), (10, 60)]
    rfl (by simp) (by decide)
  rw [h]
  norm_num

/-- C3: a SELL through `Portfolio.update_position` with `0 < quantity ≤ q`
never changes the average cost basis: when some quantity remains the row is
updated in place to `q - quantity` with the same average price, and the row
is deleted exactly when the remaining quantity is 0. -/
theorem sell_preserves_avg_cost :
    ∀ (s : Store) (sym : String) (r : PosRow) (qty : ℤ) (p : ℚ),
      findRow sym s.portfolio = some r → 0 < qty → qty ≤ r.quantity →
      (qty < r.quantity →
          findRow sym (update_position s sym qty p .SELL).portfolio =
            some ⟨sym, r.quantity - qty, r.average_price⟩)
        ∧ (qty = r.quantity →
          findRow sym (update_position s sym qty p .SELL).portfolio = none) := by
  intro s sym r qty p h _ _
  constructor
  · intro hlt
    have hq : 0 < r.quantity - qty := by omega
    rw [update_position_sell_keep qty p h hq]
    exact findRow_updateRow h
  · intro heq
    have hq : ¬ 0 < r.quantity - qty := by omega
    rw [update_position_sell_delete qty p h hq]
    exact findRow_deleteRow _

/-- C3 witness: holding 20 shares at average cost 55, a SELL of 15 leaves
5 shares at the same average cost 55, and a SELL of 20 deletes the row. -/
theorem sell_preserves_avg_cost_witness :
    findRow "XYZ" (update_position ⟨99000, [⟨"XYZ", 20, 55⟩], []⟩ "XYZ" 15 70 .SELL).portfolio
        = some ⟨"XYZ", 5, 55⟩
      ∧ findRow "XYZ" (update_position ⟨99000, [⟨"XYZ", 20, 55⟩], []⟩ "XYZ" 20 80 .SELL).portfolio
        = none := by
  constructor
  · have h := (sell_preserves_avg_cost ⟨99000, [⟨"XYZ", 20, 55⟩], []⟩ "XYZ" ⟨"XYZ", 20, 55⟩
      15 70 (by decide) (by decide) (by decide)).1 (by decide)
    norm_num at h
    exact h
  · exact (sell_preserves_avg_cost ⟨99000, [⟨"XYZ", 20, 55⟩], []⟩ "XYZ" ⟨"XYZ", 20, 55⟩
      20 80 (by decide) (by decide) (by decide)).2 rfl

/-- C8: starting from a non-negative balance, any call of the trading-form
handler — committed trade or rejected request, BUY or SELL — leaves the
balance non-negative: a BUY only commits when its total cost is at most the
balance, and a SELL only credits the balance. -/
theorem balance_nonneg_preserved :
    ∀ (s : Store) (action : TxnType) (sym : String) (qty : ℤ) (p : ℚ),
      0 ≤ s.balance → 0 ≤ p → 0 ≤ qty →
      0 ≤ (render_trading_trade s action sym qty p).2.balance := by
  intro s action sym qty p hb hp hq
  cases action with
  | BUY =>
      by_cases hc : p * (qty : ℚ) > get_balance s
      · simpa [render_trading_trade, trade_form_writes, hc] using hb
      · have hres : render_trading_trade s .BUY sym qty p =
            (none, update_position (update_balance s (get_balance s - p * (qty : ℚ)))
              sym qty p .BUY) := by
          simp [render_trading_trade, trade_form_writes, hc, update_position,
            update_balance]
        rw [hres]
        dsimp only
        rw [update_position_balance]
        have hle : p * (qty : ℚ) ≤ s.balance := not_lt.mp hc
        show (0 : ℚ) ≤ s.balance - p * (qty : ℚ)
        linarith
  | SELL =>
      cases hf : findRow sym (get_holdings s) with
      | none => simpa [render_trading_trade, trade_form_writes, hf] using hb
      | some pos =>
          by_cases hlt : pos.quantity < qty
          · simpa [render_trading_trade, trade_form_writes, hf, hlt] using hb
          · have hres : render_trading_trade s .SELL sym qty p =
                (none, update_position (update_balance s (get_balance s + p * (qty : ℚ)))
                  sym qty p .SELL) := by
              simp [render_trading_trade, trade_form_writes, hf, hlt, update_position,
                update_balance]
            rw [hres]
            dsimp only
            rw [update_position_balance]
            have h1 : (0 : ℚ) ≤ p * (qty : ℚ) := mul_nonneg hp (by exact_mod_cast hq)
            show (0 : ℚ) ≤ s.balance + p * (qty : ℚ)
            linarith

/-- C8 witness: with balance 100000, price 50 and quantity 10, a BUY keeps
the balance non-negative. -/
theorem balance_nonneg_preserved_witness :
    0 ≤ (render_trading_trade ⟨100000, [], []⟩ .BUY "XYZ" 10 50).2.balance :=
  balance_nonneg_preserved ⟨100000, [], []⟩ .BUY "XYZ" 10 50 (by norm_num) (by norm_num)
    (by norm_num)

/-- C10: `Portfolio.update_position` itself has no insufficient-shares guard:
called directly with SELL and a quantity strictly greater than the held
quantity it does not fail — it appends the SELL transaction record
unconditionally and then, the resulting quantity being ≤ 0, deletes the
position row entirely. -/
theorem update_position_no_sell_validation :
    ∀ (s : Store) (sym : String) (r : PosRow) (qty : ℤ) (p : ℚ),
      findRow sym s.portfolio = some r → r.quantity < qty →
      (update_position s sym qty p .SELL).transactions
          = s.transactions ++ [⟨sym, qty, p, .SELL⟩]
        ∧ findRow sym (update_position s sym qty p .SELL).portfolio = none := by
  intro s sym r qty p h hlt
  have hq : ¬ 0 < r.quantity - qty := by omega
  rw [update_position_sell_delete qty p h hq]
  exact ⟨rfl, findRow_deleteRow _⟩

/-- C10 witness: a direct SELL of 9 shares against a held position of 5. -/
theorem update_position_no_sell_validation_witness :
    (update_position ⟨0, [⟨"XYZ", 5, 50⟩], []⟩ "XYZ" 9 42 .SELL).transactions
        = [⟨"XYZ", 9, 42, .SELL⟩]
      ∧ findRow "XYZ" (update_position ⟨0, [⟨"XYZ", 5, 50⟩], []⟩ "XYZ" 9 42 .SELL).portfolio
        = none := by
  have h := update_position_no_sell_validation ⟨0, [⟨"XYZ", 5, 50⟩], []⟩ "XYZ"
    ⟨"XYZ", 5, 50⟩ 9 42 (by decide) (by decide)
  simpa using h

end FinPlatform
